import Mathlib

/-!
Shallow embedding of the Wand Protocol Engine of the Magic-Caster-Wand
web application: frame codec (macro encoding, notification decoding),
chunked transmission, opcode-discovery stepping, telemetry logging,
connection teardown, error handling, and opcode-table input validation.

Each definition is translated from the TypeScript source
(`App`, `SnifferPanel`, `ControlPanel`, `types`); comments point to the
function being embedded.
-/

namespace Wand

/-! ### JavaScript primitives used by the source

`parseInt(s, 16)` semantics: skip leading whitespace, optional sign,
optional `0x`/`0X`, then the longest run of hex digits; `NaN` (here
`none`) when that run is empty.  Used by `sendMacro` (color channels)
and by `OpCodeInput.onChange`. -/

def hexDigitVal (c : Char) : Option Nat :=
  if '0' ≤ c ∧ c ≤ '9' then some (c.toNat - '0'.toNat)
  else if 'a' ≤ c ∧ c ≤ 'f' then some (c.toNat - 'a'.toNat + 10)
  else if 'A' ≤ c ∧ c ≤ 'F' then some (c.toNat - 'A'.toNat + 10)
  else none

/-- JavaScript WhiteSpace ∪ LineTerminator (the set honoured by
`parseInt` skipping and by `String.prototype.trim`). -/
def isJsWhitespaceChar (c : Char) : Bool :=
  let n := c.toNat
  (0x09 ≤ n && n ≤ 0x0D) || n = 0x20 || n = 0xA0 || n = 0x1680 ||
  (0x2000 ≤ n && n ≤ 0x200A) || n = 0x2028 || n = 0x2029 ||
  n = 0x202F || n = 0x205F || n = 0x3000 || n = 0xFEFF

def hexRunValue (cs : List Char) : Nat :=
  cs.foldl (fun acc c => acc * 16 + ((hexDigitVal c).getD 0)) 0

/-- `parseInt(s, 16)`; `none` models `NaN`. -/
def jsParseIntHex (s : String) : Option Int :=
  let cs := s.data.dropWhile isJsWhitespaceChar
  let signAndRest : Int × List Char :=
    match cs with
    | '-' :: rest => (-1, rest)
    | '+' :: rest => (1, rest)
    | _ => (1, cs)
  let cs2 : List Char :=
    match signAndRest.2 with
    | '0' :: 'x' :: rest => rest
    | '0' :: 'X' :: rest => rest
    | _ => signAndRest.2
  let digits := cs2.takeWhile (fun c => (hexDigitVal c).isSome)
  if digits.isEmpty then none
  else some (signAndRest.1 * (hexRunValue digits : Int))

/-- `s.substring(a, b)` for `a ≤ b`. -/
def jsSubstring (s : String) (a b : Nat) : String :=
  String.mk ((s.data.drop a).take (b - a))

/-- ECMAScript ToUint8 as applied by `Uint8Array` construction:
an integer is reduced mod 256, `NaN` becomes 0. -/
def jsToUint8 : Option Int → Nat
  | none => 0
  | some i => (i % 256).toNat

/-! ### Data model (`types.ts`) and macro encoding (`App.sendMacro`) -/

/-- Opcode table state of `App` (`opCodes`), keyed by `CommandType`. -/
structure OpCodeTable where
  clearLeds : Nat
  buzz : Nat
  changeLed : Nat
deriving DecidableEq

/-- Initial `opCodes` state: `{ClearLeds: 0xAA, Buzz: 0xBB, ChangeLed: 0xCC}`. -/
def defaultOpCodes : OpCodeTable := ⟨0xAA, 0xBB, 0xCC⟩

/-- The tagged union `MacroCommand` of `types.ts` (the `id` field used
only for React list keys is omitted). -/
inductive MacroCommand where
  | clearLeds
  | buzz (duration : Nat)
  | changeLed (groupId : Nat) (hexColor : String) (duration : Nat)
deriving DecidableEq

/-- One iteration of the `switch` in `App.sendMacro`: the bytes pushed
onto `fullCommandBytes` for one command.  The color channels apply
`parseInt(hexColor.substring(..), 16)` with the `Uint8Array` coercion
(`NaN` → 0, mod 256) folded in at the point of production. -/
def encodeCommand (t : OpCodeTable) : MacroCommand → List Nat
  | .clearLeds => [t.clearLeds]
  | .buzz duration =>
    let d := min duration 32767
    [t.buzz, d % 256, (d / 256) % 256]
  | .changeLed groupId hexColor duration =>
    let r := jsToUint8 (jsParseIntHex (jsSubstring hexColor 0 2))
    let g := jsToUint8 (jsParseIntHex (jsSubstring hexColor 2 4))
    let b := jsToUint8 (jsParseIntHex (jsSubstring hexColor 4 6))
    let d := min duration 32767
    [t.changeLed, groupId, r, g, b, d % 256, (d / 256) % 256]

/-- The `for (const cmd of macroCommands)` loop of `App.sendMacro`:
`fullCommandBytes` accumulated over the macro in order. -/
def encodeMacro (t : OpCodeTable) : List MacroCommand → List Nat
  | [] => []
  | c :: cs => encodeCommand t c ++ encodeMacro t cs

/-- The fixed per-command contribution stated by the spec. -/
def commandSize : MacroCommand → Nat
  | .clearLeds => 1
  | .buzz _ => 3
  | .changeLed _ _ _ => 7

/-! ### Chunked transmission (`App.sendMacro`, MTU loop) -/

/-- `WandGatt.MTU_PAYLOAD_SIZE`. -/
def MTU_PAYLOAD_SIZE : Nat := 20

/-- The chunking loop `for (let i = 0; i < len; i += 20)`:
consecutive slices of at most 20 bytes, in order. -/
def chunksOf20 : List Nat → List (List Nat)
  | [] => []
  | a :: as => ((a :: as).take 20) :: chunksOf20 ((a :: as).drop 20)
termination_by l => l.length
decreasing_by simp [List.length_drop]; omega

/-- Events produced by the send loop: one write per chunk, each
followed by the fixed `setTimeout(resolve, 20)` pacing delay. -/
inductive SendEvent where
  | write (chunk : List Nat)
  | delay (ms : Nat)
deriving DecidableEq

/-- The body of the chunking loop of `App.sendMacro` as an event
trace: `sendData(chunk)` then a 20 ms delay, per chunk, in order. -/
def sendMacroTrace (bytes : List Nat) : List SendEvent :=
  ((chunksOf20 bytes).map (fun c => [SendEvent.write c, SendEvent.delay 20])).flatten

/-- The chunks written by a trace, in order. -/
def traceWrites : List SendEvent → List (List Nat)
  | [] => []
  | SendEvent.write c :: r => c :: traceWrites r
  | SendEvent.delay _ :: r => traceWrites r

/-! ### Notification decoding (`App.handleNotifications`) -/

/-- One byte rendered in lowercase hex, left-padded with zeros to
width 2 (toString base 16 plus padStart). -/
def jsByteHex (b : Nat) : String :=
  let s := Nat.toDigits 16 b
  String.mk (List.replicate (2 - s.length) '0' ++ s)

/-- The controller raw hex dump: map each byte through `jsByteHex` and
join with no separator (lowercase). -/
def rawHexJoined (data : List Nat) : String :=
  String.join (data.map jsByteHex)

/-- Same dump joined with a single space — the sniffer format. -/
def rawHexSpaced (data : List Nat) : String :=
  String.intercalate " " (data.map jsByteHex)

/-- Is `b` a UTF-8 continuation byte. -/
def isUtf8Cont (b : Nat) : Bool := 0x80 ≤ b && b ≤ 0xBF

/-- Model of `new TextDecoder().decode` (default: UTF-8, non-fatal):
well-formed sequences decode to their scalar values, malformed bytes
become U+FFFD replacement characters; the function is total and never
throws.  Structural recursion on a fuel argument (every step consumes
at least one byte, so fuel equal to the byte count never runs out). -/
def utf8DecodeGo : Nat → List Nat → List Char
  | 0, _ => []
  | _ + 1, [] => []
  | fuel + 1, b1 :: rest =>
    if b1 ≤ 0x7F then Char.ofNat b1 :: utf8DecodeGo fuel rest
    else if 0xC2 ≤ b1 && b1 ≤ 0xDF then
      match rest with
      | b2 :: r2 =>
        if isUtf8Cont b2 then
          Char.ofNat ((b1 - 0xC0) * 0x40 + (b2 - 0x80)) :: utf8DecodeGo fuel r2
        else '�' :: utf8DecodeGo fuel (b2 :: r2)
      | [] => ['�']
    else if 0xE0 ≤ b1 && b1 ≤ 0xEF then
      match rest with
      | b2 :: r2 =>
        if (if b1 = 0xE0 then 0xA0 else 0x80) ≤ b2 &&
            b2 ≤ (if b1 = 0xED then 0x9F else 0xBF) then
          match r2 with
          | b3 :: r3 =>
            if isUtf8Cont b3 then
              Char.ofNat ((b1 - 0xE0) * 0x1000 + (b2 - 0x80) * 0x40 + (b3 - 0x80))
                :: utf8DecodeGo fuel r3
            else '�' :: utf8DecodeGo fuel (b3 :: r3)
          | [] => ['�']
        else '�' :: utf8DecodeGo fuel (b2 :: r2)
      | [] => ['�']
    else if 0xF0 ≤ b1 && b1 ≤ 0xF4 then
      match rest with
      | b2 :: r2 =>
        if (if b1 = 0xF0 then 0x90 else 0x80) ≤ b2 &&
            b2 ≤ (if b1 = 0xF4 then 0x8F else 0xBF) then
          match r2 with
          | b3 :: r3 =>
            if isUtf8Cont b3 then
              match r3 with
              | b4 :: r4 =>
                if isUtf8Cont b4 then
                  Char.ofNat ((b1 - 0xF0) * 0x40000 + (b2 - 0x80) * 0x1000 +
                      (b3 - 0x80) * 0x40 + (b4 - 0x80)) :: utf8DecodeGo fuel r4
                else '�' :: utf8DecodeGo fuel (b4 :: r4)
              | [] => ['�']
            else '�' :: utf8DecodeGo fuel (b3 :: r3)
          | [] => ['�']
        else '�' :: utf8DecodeGo fuel (b2 :: r2)
      | [] => ['�']
    else '�' :: utf8DecodeGo fuel rest

def utf8Decode (l : List Nat) : List Char :=
  utf8DecodeGo l.length l

/-- `String.prototype.trim` on a character list. -/
def jsTrim (cs : List Char) : List Char :=
  ((cs.dropWhile isJsWhitespaceChar).reverse.dropWhile isJsWhitespaceChar).reverse

/-- The global-replace of NUL with the empty string applied after
`trim` in `handleNotifications`. -/
def removeNulChars (cs : List Char) : List Char :=
  cs.filter (fun c => c.toNat != 0)

/-- ASCII model of `String.prototype.toUpperCase` (the inbound spell
names are ASCII). -/
def jsToUpperChar (c : Char) : Char :=
  if 'a' ≤ c ∧ c ≤ 'z' then Char.ofNat (c.toNat - 32) else c

/-- `WandGatt.SPELL_DATA_HEADER_LEN` and `WandGatt.SPELL_MIN_LEN`. -/
def SPELL_DATA_HEADER_LEN : Nat := 4

def SPELL_MIN_LEN : Nat := 7

/-- The spell text of a payload as computed inside
`handleNotifications`: decode `data.slice(4)`, `trim()`, then remove
every NUL (in that order, as the source chains the calls). -/
def spellNameOf (data : List Nat) : List Char :=
  removeNulChars (jsTrim (utf8Decode (data.drop SPELL_DATA_HEADER_LEN)))

/-- Classification of one inbound notification: the `addLog` call made
by `handleNotifications` — `Spell` carries the uppercased name and the
full original hex dump, `Raw` carries the full payload as hex. -/
inductive TelemetryFrame where
  | spell (name : String) (rawHex : String)
  | raw (rawHex : String)
deriving DecidableEq

/-- `App.handleNotifications`, parametric in the text decoder so that
a throwing decoder (`none`, caught by the `try`/`catch`) is covered:
length guard, decode of `bytes[4:]`, trim + NUL strip, non-empty test
(JS truthiness), fallthrough to `Raw` on every other path. -/
def handleNotificationWith (textDecode : List Nat → Option (List Char))
    (data : List Nat) : TelemetryFrame :=
  if SPELL_MIN_LEN ≤ data.length then
    match textDecode (data.drop SPELL_DATA_HEADER_LEN) with
    | some decoded =>
      if (removeNulChars (jsTrim decoded)).isEmpty then
        TelemetryFrame.raw (rawHexJoined data)
      else
        TelemetryFrame.spell
          (String.mk ((removeNulChars (jsTrim decoded)).map jsToUpperChar))
          (rawHexJoined data)
    | none => TelemetryFrame.raw (rawHexJoined data)
  else TelemetryFrame.raw (rawHexJoined data)

/-- `App.handleNotifications` with the actual (never-throwing) UTF-8
decoder of the platform. -/
def handleNotification (data : List Nat) : TelemetryFrame :=
  handleNotificationWith (fun bs => some (utf8Decode bs)) data

/-! ### Opcode discovery (`App.testNextOpCode`) -/

/-- The `isOpCodeTestMode` and `opcodeToTest` state of `App`. -/
structure OpCodeTestState where
  isOpCodeTestMode : Bool
  opcodeToTest : Nat
deriving DecidableEq

/-- `App.testNextOpCode`: when the probe exceeded 0xFF, reset to 0x01,
deactivate the mode and send nothing; otherwise send the single probe
byte and increment.  The second component lists the packets written. -/
def testNextOpCode (s : OpCodeTestState) : OpCodeTestState × List (List Nat) :=
  if 0xFF < s.opcodeToTest then
    (⟨false, 0x01⟩, [])
  else
    (⟨s.isOpCodeTestMode, s.opcodeToTest + 1⟩, [[s.opcodeToTest]])

/-- State after `n` probe-step calls, starting from mode activation
(`isOpCodeTestMode = true`, `opcodeToTest = 0x01`). -/
def opCodeTestIter : Nat → OpCodeTestState
  | 0 => ⟨true, 0x01⟩
  | n + 1 => (testNextOpCode (opCodeTestIter n)).1

/-! ### Telemetry logs (`App.addLog`, `SnifferPanel.addLog`) -/

/-- `App.addLog`: `setLogs(prev => [...prev, entry])` — plain append,
no truncation. -/
def controllerAddLog {α : Type} (logs : List α) (e : α) : List α :=
  logs ++ [e]

/-- `prev.slice(-200)`: the most recent `min 200 (length prev)` entries. -/
def jsSliceLast200 {α : Type} (l : List α) : List α :=
  l.drop (l.length - 200)

/-- `SnifferPanel.addLog`: `setLogs(prev => [...prev.slice(-200), entry])`. -/
def snifferAddLog {α : Type} (logs : List α) (e : α) : List α :=
  jsSliceLast200 logs ++ [e]

/-- The entry id generator used by both `App.addLog` and
`SnifferPanel.addLog`: the sum of the wall-clock millisecond reading
and a random jitter — modelled over ℚ with `nowMs` the (integer)
clock value and `rand` the jitter drawn from [0, 1).  Both are
environment inputs, so the generator is parametric in them. -/
def logEntryId (nowMs : ℚ) (rand : ℚ) : ℚ := nowMs + rand

/-! ### Connection teardown (`App.disconnect`, `App.stopKeepAlive`) -/

/-- Observable steps of the controller teardown and keepalive. -/
inductive TeardownEvent where
  | stopKeepAliveTimer
  | removeDisconnectListener
  | gattDisconnect
  | unsubscribeNotifications
  | clearDeviceRef
  | clearWriteCharRef
  | setStatusDisconnected
  | logDisconnected
  | heartbeatWrite
deriving DecidableEq

/-- Supervisor state relevant to teardown: whether the keepalive
interval handle is set, whether a device is bound, whether its GATT
session reports connected. -/
structure SupervisorState where
  keepAliveActive : Bool
  hasDevice : Bool
  gattConnected : Bool
deriving DecidableEq

/-- `App.stopKeepAlive`: clear the interval handle if set. -/
def stopKeepAlive (s : SupervisorState) : SupervisorState :=
  { s with keepAliveActive := false }

/-- One firing of the `setInterval` body of `App.startKeepAlive`: a
heartbeat write happens only while the interval handle is set. -/
def keepAliveTick (s : SupervisorState) : List TeardownEvent :=
  if s.keepAliveActive then [TeardownEvent.heartbeatWrite] else []

/-- `App.disconnect`: stop the keepalive timer, then (if a device is
bound) remove the `gattserverdisconnected` listener and (if still
connected) call `gatt.disconnect()`, then clear the device and write
characteristic refs, set status `DISCONNECTED` and log.  The notify
characteristic is never unsubscribed on this path. -/
def disconnectRun (s : SupervisorState) : SupervisorState × List TeardownEvent :=
  let s1 := stopKeepAlive s
  let devEvents :=
    if s1.hasDevice then
      [TeardownEvent.removeDisconnectListener] ++
        (if s1.gattConnected then [TeardownEvent.gattDisconnect] else [])
    else []
  (⟨false, false, false⟩,
    [TeardownEvent.stopKeepAliveTimer] ++ devEvents ++
      [TeardownEvent.clearDeviceRef, TeardownEvent.clearWriteCharRef,
        TeardownEvent.setStatusDisconnected, TeardownEvent.logDisconnected])

/-! ### Connect-failure handling (`App.connect` catch,
`SnifferPanel.startSniffing` catch) -/

/-- `ConnectionStatus` of `types.ts` (the controller has no Scanning
member). -/
inductive ConnStatus where
  | disconnected
  | connecting
  | connected
  | error
deriving DecidableEq

/-- `SnifferStatus` of `SnifferPanel`. -/
inductive SnifferStatus where
  | sDisconnected
  | sScanning
  | sConnecting
  | sListening
  | sError
deriving DecidableEq

/-- The `catch` block of `App.connect`: for every error (the name is
ignored) set `ERROR`, then after a 3000 ms timeout set `DISCONNECTED`.
Each entry pairs the status set with the delay before it is set. -/
def connectCatchStatuses (errName : String) : List (ConnStatus × Nat) :=
  [(ConnStatus.error, 0), (ConnStatus.disconnected, 3000)]

/-- The `catch` block of `SnifferPanel.startSniffing`: `NotFoundError`
(user cancelled / no match) goes straight to `Disconnected`; any other
error sets `Error` then `Disconnected` after 3000 ms. -/
def snifferCatchStatuses (errName : String) : List (SnifferStatus × Nat) :=
  if errName = "NotFoundError" then [(SnifferStatus.sDisconnected, 0)]
  else [(SnifferStatus.sError, 0), (SnifferStatus.sDisconnected, 3000)]

/-! ### Opcode-table input validation (`ControlPanel.OpCodeInput`) -/

/-- The `onChange` handler of `OpCodeInput`: strip a leading `0x`,
`parseInt(hexVal, 16)`, commit only when the result is a number in
[0, 255]; otherwise leave the current value unchanged. -/
def opCodeInputChange (raw : String) (cur : Nat) : Nat :=
  let hexVal := if jsSubstring raw 0 2 = "0x" then String.mk (raw.data.drop 2) else raw
  match jsParseIntHex hexVal with
  | none => cur
  | some v => if 0 ≤ v ∧ v ≤ 255 then v.toNat else cur

/-! ### Sniffer subscription setup (`SnifferPanel.startSniffing`) -/

/-- One GATT characteristic as seen by the sniffer loop: its UUID, its
notify/indicate properties, and whether `startNotifications()` would
succeed on it. -/
structure BleCharacteristic where
  uuid : String
  notify : Bool
  indicate : Bool
  subscribeOk : Bool
deriving DecidableEq

/-- `PROBLEMATIC_UUIDS` of `SnifferPanel`. -/
def problematicUuids : List String := ["00002a05-0000-1000-8000-00805f9b34fb"]

/-- The subscription guard of the sniffer loop:
`(props.notify || props.indicate) && !PROBLEMATIC_UUIDS.has(char.uuid)`. -/
def isEligible (c : BleCharacteristic) : Bool :=
  (c.notify || c.indicate) && !(problematicUuids.contains c.uuid)

/-- The nested service/characteristic loop of `startSniffing`
(services flattened in iteration order): each eligible characteristic
is attempted; a failed subscribe is logged and the loop continues;
successes are pushed onto `subscribedCharsRef` in order. -/
def sniffLoop : List BleCharacteristic → List BleCharacteristic
  | [] => []
  | c :: cs =>
    if isEligible c && c.subscribeOk then c :: sniffLoop cs else sniffLoop cs

/-- Outcome of `startSniffing` after the loop: subscribed set, the
statuses set afterwards (with delays irrelevant here), and whether the
full teardown `stopSniffing` ran. -/
structure SniffOutcome where
  subscribed : List BleCharacteristic
  statuses : List SnifferStatus
  teardown : Bool
deriving DecidableEq

/-- `startSniffing` after connection: if at least one characteristic
subscribed, status `Listening`; if zero, status `Error`, alert, and a
full `stopSniffing` teardown (which drains the subscription set and
ends at `Disconnected`). -/
def startSniffingOutcome (chars : List BleCharacteristic) : SniffOutcome :=
  if 0 < (sniffLoop chars).length then
    ⟨sniffLoop chars, [SnifferStatus.sListening], false⟩
  else ⟨[], [SnifferStatus.sError, SnifferStatus.sDisconnected], true⟩

/-! ## Helper lemmas -/

lemma encodeCommand_length (t : OpCodeTable) (c : MacroCommand) :
    (encodeCommand t c).length = commandSize c := by
  cases c <;> simp [encodeCommand, commandSize]

lemma encodeMacro_eq_flatten (t : OpCodeTable) (m : List MacroCommand) :
    encodeMacro t m = (m.map (encodeCommand t)).flatten := by
  induction m with
  | nil => rfl
  | cons c cs ih => simp [encodeMacro, ih]

lemma chunksOf20_cons_eq (l : List Nat) (h : l ≠ []) :
    chunksOf20 l = l.take 20 :: chunksOf20 (l.drop 20) := by
  cases l with
  | nil => exact absurd rfl h
  | cons a as => simp [chunksOf20]

lemma chunksOf20_flatten_aux (n : Nat) :
    ∀ l : List Nat, l.length ≤ n → (chunksOf20 l).flatten = l := by
  induction n with
  | zero =>
    intro l hl
    cases l with
    | nil => simp [chunksOf20]
    | cons a as => simp at hl
  | succ k ih =>
    intro l hl
    cases l with
    | nil => simp [chunksOf20]
    | cons a as =>
      rw [chunksOf20_cons_eq _ (by simp), List.flatten_cons,
        ih ((a :: as).drop 20)
          (by simp only [List.length_drop, List.length_cons] at *; omega),
        List.take_append_drop]

lemma chunksOf20_flatten (l : List Nat) :
    (chunksOf20 l).flatten = l :=
  chunksOf20_flatten_aux l.length l le_rfl

lemma chunksOf20_bounded_aux (n : Nat) :
    ∀ l : List Nat, l.length ≤ n → ∀ c ∈ chunksOf20 l, c.length ≤ 20 := by
  induction n with
  | zero =>
    intro l hl
    cases l with
    | nil => simp [chunksOf20]
    | cons a as => simp at hl
  | succ k ih =>
    intro l hl
    cases l with
    | nil => simp [chunksOf20]
    | cons a as =>
      rw [chunksOf20_cons_eq _ (by simp)]
      intro c hc
      rcases List.mem_cons.mp hc with h | h
      · subst h; simp [List.length_take]
      · exact ih ((a :: as).drop 20)
          (by simp only [List.length_drop, List.length_cons] at *; omega) c h

lemma chunksOf20_bounded (l : List Nat) :
    ∀ c ∈ chunksOf20 l, c.length ≤ 20 :=
  chunksOf20_bounded_aux l.length l le_rfl

lemma traceWrites_of_chunks (cs : List (List Nat)) :
    traceWrites ((cs.map (fun c => [SendEvent.write c, SendEvent.delay 20])).flatten)
      = cs := by
  induction cs with
  | nil => rfl
  | cons c cs ih => simp [traceWrites, ih]

lemma opCodeTestIter_le (n : Nat) (h : n ≤ 255) :
    opCodeTestIter n = ⟨true, n + 1⟩ := by
  induction n with
  | zero => rfl
  | succ k ih =>
    have hk : k ≤ 255 := Nat.le_of_succ_le h
    rw [opCodeTestIter, ih hk, testNextOpCode]
    rw [if_neg (by simpa using h)]

/-! ## Claim theorems -/

/-- C1: encoding emits, per command in macro order, exactly its
fixed-size byte group — ClearLeds one byte, Buzz three bytes with the
clamped duration little-endian, ChangeLed seven bytes — so the total
length is the sum of the per-command contributions, concatenation
order equals macro order, and the sample macro under the default
table encodes to AA BB 2C 01 CC 00 FF 00 FF F4 01. -/
theorem encode_macro_fixed_groups (m : List MacroCommand) (t : OpCodeTable) :
    encodeMacro t m = (m.map (encodeCommand t)).flatten
    ∧ (∀ c, (encodeCommand t c).length = commandSize c)
    ∧ (encodeMacro t m).length = (m.map commandSize).sum
    ∧ encodeMacro defaultOpCodes
        [MacroCommand.clearLeds, MacroCommand.buzz 300,
          MacroCommand.changeLed 0 "FF00FF" 500]
      = [0xAA, 0xBB, 0x2C, 0x01, 0xCC, 0x00, 0xFF, 0x00, 0xFF, 0xF4, 0x01] := by
  refine ⟨encodeMacro_eq_flatten t m, encodeCommand_length t, ?_, by decide⟩
  induction m with
  | nil => rfl
  | cons c cs ih =>
    simp [encodeMacro, encodeCommand_length, ih]

/-- C3: chunked send splits the encoded bytes into consecutive chunks
of at most 20 bytes whose in-order concatenation is the original
sequence, each write followed by a fixed 20 ms delay before the next;
a 45-byte macro gives chunk sizes [20, 20, 5]. -/
theorem chunked_send_spec (l : List Nat) :
    (chunksOf20 l).flatten = l
    ∧ (∀ c ∈ chunksOf20 l, c.length ≤ 20)
    ∧ traceWrites (sendMacroTrace l) = chunksOf20 l
    ∧ sendMacroTrace l =
        ((chunksOf20 l).map (fun c => [SendEvent.write c, SendEvent.delay 20])).flatten
    ∧ (l.length = 45 → (chunksOf20 l).map List.length = [20, 20, 5]) := by
  refine ⟨chunksOf20_flatten l, chunksOf20_bounded l,
    traceWrites_of_chunks _, rfl, ?_⟩
  intro h45
  have h1 : l ≠ [] := by intro h; rw [h] at h45; simp at h45
  have e1 := chunksOf20_cons_eq l h1
  have h2 : l.drop 20 ≠ [] := by
    intro h
    have := congrArg List.length h
    simp [List.length_drop, h45] at this
  have e2 := chunksOf20_cons_eq (l.drop 20) h2
  have h3 : (l.drop 20).drop 20 ≠ [] := by
    intro h
    have := congrArg List.length h
    simp [List.length_drop, h45] at this
  have e3 := chunksOf20_cons_eq ((l.drop 20).drop 20) h3
  have h4 : ((l.drop 20).drop 20).drop 20 = [] := by
    apply List.eq_nil_of_length_eq_zero
    simp [List.length_drop, h45]
  rw [e1, e2, e3, h4]
  simp [chunksOf20, List.length_take, List.length_drop, h45]

/-- C4: with discovery mode activated at probe 0x01, the N-th probe
step (1 ≤ N ≤ 255) writes exactly the single byte N and increments
the counter; the 256th call, seeing the counter past 0xFF, writes
nothing, deactivates the mode and resets the probe to 0x01. -/
theorem opcode_discovery_sequence :
    (∀ N, 1 ≤ N → N ≤ 255 →
        testNextOpCode (opCodeTestIter (N - 1)) =
          (⟨true, N + 1⟩, [[N]]))
    ∧ testNextOpCode (opCodeTestIter 255) = (⟨false, 0x01⟩, []) := by
  constructor
  · intro N h1 h255
    rw [opCodeTestIter_le (N - 1) (by omega)]
    have hN : N - 1 + 1 = N := by omega
    rw [hN, testNextOpCode, if_neg (by simpa using h255)]
  · rw [opCodeTestIter_le 255 le_rfl, testNextOpCode, if_pos (by norm_num)]

/-- Witness for C4 at the concrete step N = 7. -/
theorem opcode_discovery_sequence_witness :
    1 ≤ 7 ∧ 7 ≤ 255
    ∧ testNextOpCode (opCodeTestIter 6) = (⟨true, 8⟩, [[7]]) :=
  ⟨by decide, by decide,
    opcode_discovery_sequence.1 7 (by decide) (by decide)⟩

/-- Witness for C3 on a concrete 45-byte payload. -/
theorem chunked_send_spec_witness :
    (List.range 45).length = 45
    ∧ (chunksOf20 (List.range 45)).map List.length = [20, 20, 5]
    ∧ (List.range 45).take 20 ∈ chunksOf20 (List.range 45)
    ∧ ((List.range 45).take 20).length ≤ 20 := by
  have hmem : (List.range 45).take 20 ∈ chunksOf20 (List.range 45) := by
    rw [chunksOf20_cons_eq _ (by decide)]
    exact List.mem_cons_self _ _
  exact ⟨by decide, (chunked_send_spec (List.range 45)).2.2.2.2 (by decide),
    hmem, (chunked_send_spec (List.range 45)).2.1 _ hmem⟩

/-- C2: a payload of length at least 7 whose post-header text, after
the trim and NUL strip performed by `handleNotifications`, is
non-empty is classified as Spell with the uppercased text as name and
the full original hex dump attached; every other payload is
classified as Raw carrying the full payload as hex.  In particular
00 00 00 00 46 49 52 45 yields Spell FIRE and 01 02 yields Raw 0102. -/
theorem notification_classification (data : List Nat) :
    (SPELL_MIN_LEN ≤ data.length → spellNameOf data ≠ [] →
        handleNotification data =
          TelemetryFrame.spell
            (String.mk ((spellNameOf data).map jsToUpperChar))
            (rawHexJoined data))
    ∧ (data.length < SPELL_MIN_LEN ∨ spellNameOf data = [] →
        handleNotification data = TelemetryFrame.raw (rawHexJoined data))
    ∧ handleNotification [0x00, 0x00, 0x00, 0x00, 0x46, 0x49, 0x52, 0x45] =
        TelemetryFrame.spell "FIRE" "0000000046495245"
    ∧ handleNotification [0x01, 0x02] = TelemetryFrame.raw "0102" := by
  refine ⟨?_, ?_, by decide, by decide⟩
  · intro hlen hne
    have he : ¬ (removeNulChars (jsTrim (utf8Decode
        (data.drop SPELL_DATA_HEADER_LEN)))).isEmpty = true := by
      simpa [spellNameOf, List.isEmpty_iff] using hne
    simp [handleNotification, handleNotificationWith, hlen, he, spellNameOf]
  · intro h
    rcases h with h | h
    · simp [handleNotification, handleNotificationWith, Nat.not_le.mpr h]
    · by_cases hlen : SPELL_MIN_LEN ≤ data.length
      · have he : (removeNulChars (jsTrim (utf8Decode
            (data.drop SPELL_DATA_HEADER_LEN)))).isEmpty = true := by
          simpa [spellNameOf, List.isEmpty_iff] using h
        simp [handleNotification, handleNotificationWith, hlen, he]
      · simp [handleNotification, handleNotificationWith, hlen]

/-- Witness for C2 at the two scenario payloads. -/
theorem notification_classification_witness :
    SPELL_MIN_LEN ≤ ([0x00, 0x00, 0x00, 0x00, 0x46, 0x49, 0x52, 0x45] : List Nat).length
    ∧ spellNameOf [0x00, 0x00, 0x00, 0x00, 0x46, 0x49, 0x52, 0x45] ≠ []
    ∧ handleNotification [0x00, 0x00, 0x00, 0x00, 0x46, 0x49, 0x52, 0x45] =
        TelemetryFrame.spell
          (String.mk ((spellNameOf [0x00, 0x00, 0x00, 0x00, 0x46, 0x49, 0x52, 0x45]).map jsToUpperChar))
          (rawHexJoined [0x00, 0x00, 0x00, 0x00, 0x46, 0x49, 0x52, 0x45])
    ∧ ([0x01, 0x02] : List Nat).length < SPELL_MIN_LEN
    ∧ handleNotification [0x01, 0x02] =
        TelemetryFrame.raw (rawHexJoined [0x01, 0x02]) :=
  ⟨by decide, by decide,
    (notification_classification _).1 (by decide) (by decide),
    by decide,
    (notification_classification _).2.1 (Or.inl (by decide))⟩

/-- C7: decoding is total — for every text decoder outcome and every
byte sequence, including the empty one, the classification yields a
frame; a text-decoding error (decoder returning none, caught by the
try block) is treated as the absence of a spell name and falls
through to Raw. -/
theorem decode_never_raises (td : List Nat → Option (List Char)) (data : List Nat) :
    ((∃ nm hx, handleNotificationWith td data = TelemetryFrame.spell nm hx)
        ∨ handleNotificationWith td data = TelemetryFrame.raw (rawHexJoined data))
    ∧ (td (data.drop SPELL_DATA_HEADER_LEN) = none →
        handleNotificationWith td data = TelemetryFrame.raw (rawHexJoined data))
    ∧ handleNotification [] = TelemetryFrame.raw "" := by
  refine ⟨?_, ?_, by decide⟩
  · by_cases hlen : SPELL_MIN_LEN ≤ data.length
    · cases htd : td (data.drop SPELL_DATA_HEADER_LEN) with
      | none =>
        exact Or.inr (by simp [handleNotificationWith, hlen, htd])
      | some decoded =>
        by_cases he : (removeNulChars (jsTrim decoded)).isEmpty = true
        · exact Or.inr (by simp [handleNotificationWith, hlen, htd, he])
        · refine Or.inl
            ⟨String.mk ((removeNulChars (jsTrim decoded)).map jsToUpperChar),
              rawHexJoined data, ?_⟩
          simp [handleNotificationWith, hlen, htd, he]
    · exact Or.inr (by simp [handleNotificationWith, hlen])
  · intro htd
    by_cases hlen : SPELL_MIN_LEN ≤ data.length
    · simp [handleNotificationWith, hlen, htd]
    · simp [handleNotificationWith, hlen]

/-- Witness for C7 with a decoder that always fails, on a length-7
payload (so the failure path, not the length guard, is exercised). -/
theorem decode_never_raises_witness :
    (fun _ : List Nat => (none : Option (List Char)))
        (([0, 0, 0, 0, 0, 0, 0] : List Nat).drop SPELL_DATA_HEADER_LEN) = none
    ∧ handleNotificationWith (fun _ => none) [0, 0, 0, 0, 0, 0, 0] =
        TelemetryFrame.raw (rawHexJoined [0, 0, 0, 0, 0, 0, 0]) :=
  ⟨rfl, (decode_never_raises (fun _ => none) [0, 0, 0, 0, 0, 0, 0]).2.1 rfl⟩

/-- C5 counterexample: appending to a 200-entry log leaves 201 entries
in both logs — the controller append never truncates, and the sniffer
append keeps the last 200 previous entries plus the new one — so no
append keeps the log at "at most the most recent 200 entries".
Moreover the identifiers are not monotonically increasing and can be
reused: two appends within the same clock millisecond (nowMs = 1000)
with jitters 9/10 and then 1/10 build a log whose second, later id is
smaller than the first, and equal clock and jitter values reproduce
the identical id. -/
theorem telemetry_log_truncation_cex :
    (controllerAddLog (List.replicate 200 (0 : Nat)) 0).length = 201
    ∧ (snifferAddLog (List.replicate 200 (0 : Nat)) 0).length = 201
    ∧ ¬ (controllerAddLog (List.replicate 200 (0 : Nat)) 0).length ≤ 200
    ∧ ¬ (snifferAddLog (List.replicate 200 (0 : Nat)) 0).length ≤ 200
    ∧ controllerAddLog (controllerAddLog ([] : List ℚ) (logEntryId 1000 (9/10)))
        (logEntryId 1000 (1/10))
      = [logEntryId 1000 (9/10), logEntryId 1000 (1/10)]
    ∧ logEntryId 1000 (1/10) < logEntryId 1000 (9/10)
    ∧ logEntryId 1000 (1/2) = logEntryId 1000 (1/2) := by
  refine ⟨?_, ?_, ?_, ?_, rfl, by norm_num [logEntryId], rfl⟩ <;>
    simp only [controllerAddLog, snifferAddLog, jsSliceLast200,
      List.length_append, List.length_replicate, List.length_drop,
      List.length_singleton] <;> omega

/-- C5 amended: the controller log is append-only and unbounded; the
sniffer log append keeps a suffix (the most recent entries) of at
most 200 previous entries and appends the new one, bounding that log
to 201 entries, with the oldest entries silently dropped; entry
identifiers (clock milliseconds plus a jitter in [0, 1)) strictly
increase whenever the clock has advanced by at least one millisecond
between appends — within one millisecond neither monotonicity nor
non-reuse is guaranteed (see the counterexample). -/
theorem telemetry_log_append_amended {α : Type} (logs : List α) (e : α) :
    (controllerAddLog logs e).length = logs.length + 1
    ∧ (controllerAddLog logs e).take logs.length = logs
    ∧ (snifferAddLog logs e).length ≤ 201
    ∧ (∃ dropped kept, logs = dropped ++ kept ∧ kept.length ≤ 200
        ∧ snifferAddLog logs e = kept ++ [e])
    ∧ (∀ now1 now2 r1 r2 : ℚ, r1 < 1 → 0 ≤ r2 → now1 + 1 ≤ now2 →
        logEntryId now1 r1 < logEntryId now2 r2) := by
  refine ⟨by simp [controllerAddLog], ?_, ?_, ?_, ?_⟩
  · rw [controllerAddLog, List.take_left]
  · simp only [snifferAddLog, jsSliceLast200, List.length_append,
      List.length_drop, List.length_singleton]
    omega
  · refine ⟨logs.take (logs.length - 200), logs.drop (logs.length - 200),
      (List.take_append_drop _ _).symm, ?_, rfl⟩
    simp only [List.length_drop]
    omega
  · intro now1 now2 r1 r2 h1 h2 h12
    simp only [logEntryId]
    linarith

/-- Witness for C5 (amended) on the id-ordering conjunct: ids drawn
one millisecond apart are strictly increasing. -/
theorem telemetry_log_append_amended_witness :
    ((9/10 : ℚ) < 1 ∧ (0 : ℚ) ≤ 0 ∧ (1000 : ℚ) + 1 ≤ 1001)
    ∧ logEntryId 1000 (9/10) < logEntryId 1001 0 :=
  ⟨⟨by norm_num, le_refl 0, by norm_num⟩,
    (telemetry_log_append_amended ([] : List ℚ) 0).2.2.2.2 1000 1001 (9/10) 0
      (by norm_num) (le_refl 0) (by norm_num)⟩

/-- C6 counterexample: on a fully connected session, the teardown
trace of `disconnect` contains no notify-characteristic unsubscribe
step at all, contradicting the claimed timer-stop → unsubscribe →
disconnect → clear ordering. -/
theorem teardown_missing_unsubscribe_cex :
    TeardownEvent.unsubscribeNotifications ∉ (disconnectRun ⟨true, true, true⟩).2
    ∧ (disconnectRun ⟨true, true, true⟩).2 =
        [TeardownEvent.stopKeepAliveTimer, TeardownEvent.removeDisconnectListener,
          TeardownEvent.gattDisconnect, TeardownEvent.clearDeviceRef,
          TeardownEvent.clearWriteCharRef, TeardownEvent.setStatusDisconnected,
          TeardownEvent.logDisconnected] := by
  refine ⟨by decide, by decide⟩

/-- C6 amended: every teardown stops the keepalive timer first, then
(best-effort) removes the disconnect listener and attempts transport
disconnect, then clears both bindings and sets Disconnected; the
notify characteristic is never explicitly unsubscribed, and after the
timer-stop no heartbeat can fire (the resulting state ticks no
heartbeat and the trace contains none). -/
theorem teardown_order_amended (s : SupervisorState) :
    (disconnectRun s).2.head? = some TeardownEvent.stopKeepAliveTimer
    ∧ TeardownEvent.unsubscribeNotifications ∉ (disconnectRun s).2
    ∧ TeardownEvent.heartbeatWrite ∉ (disconnectRun s).2
    ∧ (disconnectRun s).1.keepAliveActive = false
    ∧ keepAliveTick (disconnectRun s).1 = []
    ∧ ∃ mid, (disconnectRun s).2 =
        TeardownEvent.stopKeepAliveTimer :: mid ++
          [TeardownEvent.clearDeviceRef, TeardownEvent.clearWriteCharRef,
            TeardownEvent.setStatusDisconnected, TeardownEvent.logDisconnected]
        ∧ mid ⊆ [TeardownEvent.removeDisconnectListener, TeardownEvent.gattDisconnect] := by
  obtain ⟨ka, hd, gc⟩ := s
  cases ka <;> cases hd <;> cases gc <;>
    exact ⟨rfl, by decide, by decide, rfl, rfl, _, rfl, by decide⟩

/-- C8 counterexample: the controller connect failure handler treats
the user-cancel / no-match error (`NotFoundError`) like every other
failure — it enters the Error state before reverting — contradicting
the claimed silent revert to Disconnected. -/
theorem device_not_found_enters_error_cex :
    (ConnStatus.error, 0) ∈ connectCatchStatuses "NotFoundError"
    ∧ connectCatchStatuses "NotFoundError" =
        [(ConnStatus.error, 0), (ConnStatus.disconnected, 3000)] := by
  refine ⟨by decide, rfl⟩

/-- C8 amended: only the sniffer reverts silently to Disconnected on
`NotFoundError`; the controller connect handler enters Error on every
failure, including `NotFoundError`, and auto-reverts to Disconnected
after 3000 ms; for any other sniffer error the Error state is entered
with the same 3-second revert. -/
theorem connect_failure_statuses_amended (errName : String) :
    connectCatchStatuses errName =
        [(ConnStatus.error, 0), (ConnStatus.disconnected, 3000)]
    ∧ snifferCatchStatuses "NotFoundError" = [(SnifferStatus.sDisconnected, 0)]
    ∧ (errName ≠ "NotFoundError" →
        snifferCatchStatuses errName =
          [(SnifferStatus.sError, 0), (SnifferStatus.sDisconnected, 3000)]) := by
  refine ⟨rfl, rfl, ?_⟩
  intro h
  rw [snifferCatchStatuses, if_neg h]

/-- Witness for C8 (amended) at a concrete non-cancel error name. -/
theorem connect_failure_statuses_amended_witness :
    ("SecurityError" : String) ≠ "NotFoundError"
    ∧ snifferCatchStatuses "SecurityError" =
        [(SnifferStatus.sError, 0), (SnifferStatus.sDisconnected, 3000)] :=
  ⟨by decide,
    (connect_failure_statuses_amended "SecurityError").2.2 (by decide)⟩

/-- C9: the opcode input commits only parsed values in [0, 255]; a
non-numeric input (parse yields NaN) or an out-of-range value leaves
the current value unchanged, so invalid values never reach the table;
and the encoder reads the opcode from the table passed at encode
time, so an accepted update affects only subsequent encodes. -/
theorem opcode_input_validation (raw : String) (cur : Nat) (hcur : cur ≤ 255) :
    opCodeInputChange raw cur ≤ 255
    ∧ (jsParseIntHex (if jsSubstring raw 0 2 = "0x"
          then String.mk (raw.data.drop 2) else raw) = none →
        opCodeInputChange raw cur = cur)
    ∧ (∀ v, jsParseIntHex (if jsSubstring raw 0 2 = "0x"
          then String.mk (raw.data.drop 2) else raw) = some v →
        (v < 0 ∨ 255 < v) → opCodeInputChange raw cur = cur)
    ∧ (∀ t : OpCodeTable, encodeCommand t MacroCommand.clearLeds = [t.clearLeds]) := by
  refine ⟨?_, ?_, ?_, fun t => rfl⟩
  · rw [opCodeInputChange]
    cases h : jsParseIntHex (if jsSubstring raw 0 2 = "0x"
        then String.mk (raw.data.drop 2) else raw) with
    | none => exact hcur
    | some v =>
      by_cases hv : 0 ≤ v ∧ v ≤ 255
      · simp only [if_pos hv]
        exact Int.toNat_le.mpr hv.2
      · simp only [if_neg hv]
        exact hcur
  · intro h
    rw [opCodeInputChange, h]
  · intro v h hout
    rw [opCodeInputChange, h]
    simp only [if_neg (by omega : ¬ (0 ≤ v ∧ v ≤ 255))]

/-- Witness for C9 at concrete inputs: a non-numeric string and an
out-of-range value, both starting from the default 0xAA. -/
theorem opcode_input_validation_witness :
    (0xAA : Nat) ≤ 255
    ∧ opCodeInputChange "0xZZ" 0xAA ≤ 255
    ∧ opCodeInputChange "0xZZ" 0xAA = 0xAA
    ∧ opCodeInputChange "0x1FF" 0xAA = 0xAA :=
  ⟨by decide,
    (opcode_input_validation "0xZZ" 0xAA (by decide)).1,
    (opcode_input_validation "0xZZ" 0xAA (by decide)).2.1 (by decide),
    (opcode_input_validation "0x1FF" 0xAA (by decide)).2.2.1 511 (by decide)
      (Or.inr (by decide))⟩

/-- C10: a per-characteristic subscribe failure does not abort the
sniffer loop (the subscribed set is exactly the in-order filter of
eligible characteristics whose subscribe succeeded); with at least
one success the sniff proceeds to Listening with no teardown; with
zero successes the outcome is a total failure — Error surfaced and
full teardown performed (draining the set and ending Disconnected). -/
theorem sniffer_subscribe_policy (chars : List BleCharacteristic) :
    sniffLoop chars = chars.filter (fun c => isEligible c && c.subscribeOk)
    ∧ ((∃ c ∈ chars, (isEligible c && c.subscribeOk) = true) →
        (startSniffingOutcome chars).statuses = [SnifferStatus.sListening]
        ∧ (startSniffingOutcome chars).teardown = false
        ∧ (startSniffingOutcome chars).subscribed =
            chars.filter (fun c => isEligible c && c.subscribeOk))
    ∧ ((∀ c ∈ chars, ¬ (isEligible c && c.subscribeOk) = true) →
        (startSniffingOutcome chars).statuses =
            [SnifferStatus.sError, SnifferStatus.sDisconnected]
        ∧ (startSniffingOutcome chars).teardown = true
        ∧ (startSniffingOutcome chars).subscribed = []) := by
  have hfilter : sniffLoop chars =
      chars.filter (fun c => isEligible c && c.subscribeOk) := by
    induction chars with
    | nil => rfl
    | cons c cs ih =>
      by_cases hc : (isEligible c && c.subscribeOk) = true
      · simp [sniffLoop, List.filter_cons, hc, ih]
      · simp [sniffLoop, List.filter_cons, hc, ih]
  refine ⟨hfilter, ?_, ?_⟩
  · rintro ⟨c, hc, hok⟩
    have hmem : c ∈ sniffLoop chars := by
      rw [hfilter]
      exact List.mem_filter.mpr ⟨hc, hok⟩
    have hpos : 0 < (sniffLoop chars).length :=
      List.length_pos.mpr (List.ne_nil_of_mem hmem)
    rw [startSniffingOutcome, if_pos hpos]
    exact ⟨rfl, rfl, hfilter⟩
  · intro hall
    have hnil : sniffLoop chars = [] := by
      rw [hfilter]
      exact List.filter_eq_nil_iff.mpr hall
    rw [startSniffingOutcome, hnil, if_neg (by simp)]
    exact ⟨rfl, rfl, rfl⟩

/-- Witness for C10: one list where the only eligible characteristic
fails but another succeeds (sniff proceeds), and one where the single
eligible characteristic fails to subscribe (total failure, teardown). -/
theorem sniffer_subscribe_policy_witness :
    (∃ c ∈ [BleCharacteristic.mk "0000aaaa" true false false,
        BleCharacteristic.mk "0000bbbb" false true true],
      (isEligible c && c.subscribeOk) = true)
    ∧ (startSniffingOutcome [BleCharacteristic.mk "0000aaaa" true false false,
        BleCharacteristic.mk "0000bbbb" false true true]).statuses =
          [SnifferStatus.sListening]
    ∧ (∀ c ∈ [BleCharacteristic.mk "0000aaaa" true false false],
        ¬ (isEligible c && c.subscribeOk) = true)
    ∧ (startSniffingOutcome [BleCharacteristic.mk "0000aaaa" true false false]).teardown
        = true :=
  ⟨by decide,
    ((sniffer_subscribe_policy _).2.1 (by decide)).1,
    by decide,
    ((sniffer_subscribe_policy _).2.2 (by decide)).2.1⟩

end Wand
